import Mathlib

/- Verification development for the NeuroHack conversational-memory backend.
   The Python sources under backend/ are shallowly embedded: pure logic is
   translated into executable Lean functions; calls to external services
   (LLM providers, ChromaDB, Neo4j driver) are modelled as explicit oracle
   inputs; Python exceptions are modelled with an explicit error type.
   Floating-point times/distances are modelled as rationals. -/

namespace NeuroHack

/-! ## Python-level helpers -/

/-- Python exceptions that the embedded code can raise. -/
inductive PyErr where
  | attributeErr (msg : String)
  | indexErr
  | typeErr
  | unboundLocalErr
  | exc (msg : String)
deriving DecidableEq, Repr

/-- does the first character list occur at the head of the second? -/
def headMatches : List Char → List Char → Bool
  | [], _ => true
  | _ :: _, [] => false
  | a :: as, b :: bs => a == b && headMatches as bs

/-- does the first character list occur anywhere inside the second?
(Python `needle in haystack`). -/
def containsSeq (n : List Char) : List Char → Bool
  | [] => headMatches n []
  | h :: t => headMatches n (h :: t) || containsSeq n t

/-- Python `needle in haystack` on strings. -/
def pyStrContains (hay needle : String) : Bool :=
  containsSeq needle.toList hay.toList

/-- whitespace characters stripped by Python `str.strip()` (the ASCII
ones; the rarer unicode whitespace is not modelled). -/
def isPyWs (c : Char) : Bool :=
  c == ' ' || c == '\t' || c == '\n' || c == '\r' || c == '\x0b' || c == '\x0c'

/-- Python `str.strip()` (surrounding whitespace removal). -/
def pyStrip (s : String) : String :=
  String.mk (((s.toList.dropWhile isPyWs).reverse.dropWhile isPyWs).reverse)

/-- Python `str.upper()` on ASCII labels. -/
def strToUpper (s : String) : String :=
  String.mk (s.toList.map Char.toUpper)

/-! ## JSON values and a model of Python json.loads

llm_factory.py recovers JSON from model output with `json.loads`.
`json.loads` is external (Python stdlib), so it is modelled here by an
executable parser of the JSON grammar (strings, numbers as rationals,
arrays, objects, literals; the non-finite float literals accepted by
Python are outside the rational model and omitted). -/

inductive JsonVal where
  | null
  | bool (b : Bool)
  | num (q : ℚ)
  | str (s : String)
  | arr (xs : List JsonVal)
  | obj (kvs : List (String × JsonVal))
deriving Repr

/-- is the value a JSON object (a Python dict)? -/
def JsonVal.isObj : JsonVal → Bool
  | .obj _ => true
  | _ => false

/-- whitespace characters of the JSON grammar. -/
def isJsonWs (c : Char) : Bool :=
  c.toNat == 32 || c.toNat == 9 || c.toNat == 10 || c.toNat == 13

/-- drop leading JSON whitespace. -/
def skipWs (cs : List Char) : List Char :=
  cs.dropWhile isJsonWs

/-- split off a maximal run of leading decimal digits. -/
def takeDigits (cs : List Char) : List Char × List Char :=
  (cs.takeWhile Char.isDigit, cs.dropWhile Char.isDigit)

/-- numeric value of a digit run. -/
def digitsVal (ds : List Char) : Nat :=
  ds.foldl (fun acc d => Nat.succ 9 * acc + (d.toNat - Nat.succ 47)) 0

/-- JSON integer part: a lone 0, or a nonzero digit followed by digits. -/
def parseIntDigits : List Char → Option (List Char × List Char)
  | [] => none
  | '0' :: rest => some (['0'], rest)
  | c :: rest =>
    if c.isDigit then
      let p := takeDigits rest
      some (c :: p.1, p.2)
    else none

/-- JSON number (sign, integer part, optional fraction and exponent). -/
def parseNumber (cs : List Char) : Option (ℚ × List Char) :=
  let sp : Bool × List Char :=
    if cs.head? == some '-' then (true, cs.tail) else (false, cs)
  match parseIntDigits sp.2 with
  | none => none
  | some (ids, cs2) =>
    let fp : List Char × List Char × Bool :=
      match cs2 with
      | '.' :: r =>
        let p := takeDigits r
        (p.1, p.2, !p.1.isEmpty)
      | _ => ([], cs2, true)
    if !fp.2.2 then none else
    let ep : List Char × List Char × Bool × Bool :=
      match fp.2.1 with
      | 'e' :: r =>
        let sp2 : Bool × List Char :=
          match r with
          | '+' :: rr => (false, rr)
          | '-' :: rr => (true, rr)
          | _ => (false, r)
        let p := takeDigits sp2.2
        (p.1, p.2, !p.1.isEmpty, sp2.1)
      | 'E' :: r =>
        let sp2 : Bool × List Char :=
          match r with
          | '+' :: rr => (false, rr)
          | '-' :: rr => (true, rr)
          | _ => (false, r)
        let p := takeDigits sp2.2
        (p.1, p.2, !p.1.isEmpty, sp2.1)
      | _ => ([], fp.2.1, true, false)
    if !ep.2.2.1 then none else
    let mant : ℚ := (digitsVal ids : ℚ) + (digitsVal fp.1 : ℚ) / (10 : ℚ) ^ fp.1.length
    let mant := if sp.1 then -mant else mant
    let v : ℚ :=
      if ep.2.2.2 then mant / (10 : ℚ) ^ digitsVal ep.1
      else mant * (10 : ℚ) ^ digitsVal ep.1
    some (v, ep.2.1)

/-- value of a hexadecimal digit (by character code: 0-9, a-f, A-F). -/
def hexVal (c : Char) : Option Nat :=
  let code := c.toNat
  if 48 ≤ code && code ≤ 57 then some (code - 48)
  else if 97 ≤ code && code ≤ 102 then some (code - 87)
  else if 65 ≤ code && code ≤ 70 then some (code - 55)
  else none

/-- JSON string body after the opening quote; `acc` holds the characters
read so far in reverse. -/
def parseStringBody : Nat → List Char → List Char → Option (String × List Char)
  | 0, _, _ => none
  | _ + 1, _, [] => none
  | _ + 1, acc, '"' :: rest => some (String.mk acc.reverse, rest)
  | fuel + 1, acc, '\\' :: esc =>
    match esc with
    | '"' :: r => parseStringBody fuel ('"' :: acc) r
    | '\\' :: r => parseStringBody fuel ('\\' :: acc) r
    | '/' :: r => parseStringBody fuel ('/' :: acc) r
    | 'b' :: r => parseStringBody fuel (Char.ofNat 8 :: acc) r
    | 'f' :: r => parseStringBody fuel (Char.ofNat 12 :: acc) r
    | 'n' :: r => parseStringBody fuel ('\n' :: acc) r
    | 'r' :: r => parseStringBody fuel ('\r' :: acc) r
    | 't' :: r => parseStringBody fuel ('\t' :: acc) r
    | 'u' :: h1 :: h2 :: h3 :: h4 :: r =>
      match hexVal h1, hexVal h2, hexVal h3, hexVal h4 with
      | some a, some b, some c, some d =>
        parseStringBody fuel (Char.ofNat (d + 16 * (c + 16 * (b + 16 * a))) :: acc) r
      | _, _, _, _ => none
    | _ => none
  | fuel + 1, acc, c :: rest =>
    if c.toNat < 32 then none else parseStringBody fuel (c :: acc) rest

mutual

/-- parse one JSON value (leading whitespace allowed). -/
def parseValue : Nat → List Char → Option (JsonVal × List Char)
  | 0, _ => none
  | fuel + 1, cs0 =>
    match skipWs cs0 with
    | [] => none
    | c :: rest =>
      if c = '\x7b' then
        match skipWs rest with
        | '\x7d' :: r2 => some (JsonVal.obj [], r2)
        | _ => (parseMembers fuel rest []).map (fun p => (JsonVal.obj p.1, p.2))
      else if c = '[' then
        match skipWs rest with
        | ']' :: r2 => some (JsonVal.arr [], r2)
        | _ => (parseElems fuel rest []).map (fun p => (JsonVal.arr p.1, p.2))
      else if c = '"' then
        (parseStringBody (fuel + 1) [] rest).map (fun p => (JsonVal.str p.1, p.2))
      else if headMatches ['t', 'r', 'u', 'e'] (c :: rest) then
        some (JsonVal.bool true, (c :: rest).drop 4)
      else if headMatches ['f', 'a', 'l', 's', 'e'] (c :: rest) then
        some (JsonVal.bool false, (c :: rest).drop 5)
      else if headMatches ['n', 'u', 'l', 'l'] (c :: rest) then
        some (JsonVal.null, (c :: rest).drop 4)
      else
        (parseNumber (c :: rest)).map (fun p => (JsonVal.num p.1, p.2))

/-- parse the members of a JSON object after the opening brace. -/
def parseMembers : Nat → List Char → List (String × JsonVal) →
    Option (List (String × JsonVal) × List Char)
  | 0, _, _ => none
  | fuel + 1, cs, acc =>
    match skipWs cs with
    | '"' :: rest =>
      match parseStringBody (fuel + 1) [] rest with
      | none => none
      | some (k, r1) =>
        match skipWs r1 with
        | ':' :: r2 =>
          match parseValue fuel r2 with
          | none => none
          | some (v, r3) =>
            match skipWs r3 with
            | ',' :: r4 => parseMembers fuel r4 (acc ++ [(k, v)])
            | '\x7d' :: r4 => some (acc ++ [(k, v)], r4)
            | _ => none
        | _ => none
    | _ => none

/-- parse the elements of a JSON array after the opening bracket. -/
def parseElems : Nat → List Char → List JsonVal →
    Option (List JsonVal × List Char)
  | 0, _, _ => none
  | fuel + 1, cs, acc =>
    match parseValue fuel cs with
    | none => none
    | some (v, r) =>
      match skipWs r with
      | ',' :: r2 => parseElems fuel r2 (acc ++ [v])
      | ']' :: r2 => some (acc ++ [v], r2)
      | _ => none

end

/-- model of Python `json.loads`: parse one document, allow surrounding
whitespace, reject trailing data; `none` models a raised JSONDecodeError. -/
def pyLoadsL (cs : List Char) : Option JsonVal :=
  match parseValue (2 * cs.length + 2) cs with
  | some (v, rest) => if (skipWs rest).isEmpty then some v else none
  | none => none

/-- `json.loads` on a string. -/
def pyLoads (s : String) : Option JsonVal :=
  pyLoadsL s.toList

/-! ## llm_factory.py: the `_parse_json` recovery chain

GeminiProvider._parse_json and LlamaLocalProvider._parse_json are
textually identical; one definition embeds both. -/

/-- index of the first occurrence of a character, if any. -/
def findIdxCh (c : Char) : List Char → Option Nat
  | [] => none
  | x :: xs => if x = c then some 0 else (findIdxCh c xs).map (· + 1)

/-- Python `str.find(c)`: first index or -1. -/
def pyFind (s : String) (c : Char) : Int :=
  match findIdxCh c s.toList with
  | some i => (i : Int)
  | none => -1

/-- Python `str.rfind(c)`: last index or -1. -/
def pyRfind (s : String) (c : Char) : Int :=
  match findIdxCh c s.toList.reverse with
  | some i => (s.toList.length - 1 - i : Int)
  | none => -1

/-- Python slice `s[a:b]` for non-negative indices. -/
def pySlice (s : String) (a b : Int) : String :=
  String.mk ((s.toList.drop a.toNat).take (b.toNat - a.toNat))

/-- the fence-stripping prelude of `_parse_json`: strip whitespace, drop
a leading "```json" marker, drop a trailing "```" marker. -/
def stripFences (s : String) : String :=
  let t := (pyStrip s).toList
  let t := if headMatches "```json".toList t then t.drop 7 else t
  let t := if headMatches "```".toList.reverse t.reverse then t.take (t.length - 3) else t
  String.mk t

/-- `_parse_json` from llm_factory.py: strip code fences, attempt a strict
parse, else parse the substring from the first brace to the last closing
brace, else return the empty object. Total: a raised parse error is the
`none` branch of `pyLoads`. -/
def parse_json (s : String) : JsonVal :=
  match pyLoads (stripFences s) with
  | some v => v
  | none =>
    if pyFind (stripFences s) '\x7b' ≠ -1 ∧ pyRfind (stripFences s) '\x7d' + 1 ≠ -1 then
      match pyLoads (pySlice (stripFences s) (pyFind (stripFences s) '\x7b')
          (pyRfind (stripFences s) '\x7d' + 1)) with
      | some v => v
      | none => JsonVal.obj []
    else JsonVal.obj []

/-! ## llm_factory.py: retry configuration and provider bodies -/

/-- `is_retryable_error` from llm_factory.py: retry unless "429" occurs in
the exception text. -/
def is_retryable_error (msg : String) : Bool :=
  !(pyStrContains msg "429")

/-- outcome of a tenacity-wrapped call: final result plus how many
attempts were actually executed. -/
structure RetryResult (α : Type) where
  result : Except String α
  attempts : Nat
deriving Repr

/-- the tenacity loop: run the call; on a raised exception retry while the
predicate accepts it and the attempt budget remains. `call n` is the
outcome of executing the wrapped function body on attempt `n`. -/
def tenacityGo (shouldRetry : String → Bool) (call : Nat → Except String α) :
    Nat → Nat → RetryResult α
  | attempt, budget =>
    match call attempt with
    | .ok v => ⟨.ok v, attempt⟩
    | .error e =>
      match budget with
      | 0 => ⟨.error e, attempt⟩
      | b + 1 =>
        if shouldRetry e then tenacityGo shouldRetry call (attempt + 1) b
        else ⟨.error e, attempt⟩

/-- `stop_after_attempt(3)` with `retry_if_exception(is_retryable_error)`. -/
def tenacityRetry (shouldRetry : String → Bool) (call : Nat → Except String α) :
    RetryResult α :=
  tenacityGo shouldRetry call 1 2

/-- fixed degraded-service text returned on a Gemini 429. -/
def gemini429Text : String :=
  "System limited: Gemini API quota exceeded. Please wait a moment."

/-- body of GeminiProvider.generate_text: the whole call is inside
try/except, so every raised exception is converted to a returned sentinel
string and nothing escapes to the retry wrapper. `raw` is the outcome of
the underlying API call. -/
def geminiTextBody (raw : Except String String) : Except String String :=
  match raw with
  | .ok t => .ok t
  | .error e =>
    .ok (if pyStrContains e "429" then gemini429Text
         else "Thinking process interrupted: " ++ e)

/-- GeminiProvider.generate_text with its retry decorator; `raw n` is the
underlying API outcome on attempt `n`. -/
def gemini_generate_text (raw : Nat → Except String String) : RetryResult String :=
  tenacityRetry is_retryable_error (fun n => geminiTextBody (raw n))

/-- body of GeminiProvider.generate_json: on success the response text is
run through `_parse_json`; every raised exception is converted to a
returned empty object. -/
def geminiJsonBody (raw : Except String String) : Except String JsonVal :=
  match raw with
  | .ok t => .ok (parse_json t)
  | .error _ => .ok (JsonVal.obj [])

/-- GeminiProvider.generate_json with its retry decorator. -/
def gemini_generate_json (raw : Nat → Except String String) : RetryResult JsonVal :=
  tenacityRetry is_retryable_error (fun n => geminiJsonBody (raw n))

/-! ## memory_manager.py: graph state and operations

Neo4j is embedded as an explicit state: a list of nodes (label, id,
property map) and a list of edges (type, endpoints addressed by
label and id). Cypher queries run by the code are translated to their
effect on this state. Timestamps (`time.time()`) are oracle inputs,
as rationals. -/

/-- a Neo4j property value: string or numeric. -/
inductive PVal where
  | s (v : String)
  | n (v : ℚ)
deriving DecidableEq, Repr

/-- a graph node. -/
structure GNode where
  label : String
  id : String
  props : List (String × PVal)
deriving DecidableEq, Repr

/-- a graph relationship. -/
structure GEdge where
  typ : String
  srcLabel : String
  srcId : String
  dstLabel : String
  dstId : String
  props : List (String × PVal)
deriving DecidableEq, Repr

/-- the graph database state. -/
structure GraphState where
  nodes : List GNode
  edges : List GEdge
deriving DecidableEq, Repr

/-- first value bound to a key in a property map. -/
def lookupProps : List (String × PVal) → String → Option PVal
  | [], _ => none
  | p :: rest, q => if p.1 == q then some p.2 else lookupProps rest q

/-- replace an entry when it carries the given key. -/
def setEntry (k : String) (v : PVal) (p : String × PVal) : String × PVal :=
  if p.1 == k then (k, v) else p

/-- set a key in a property map (update every occurrence, else append),
the effect of Cypher `SET n.k = v`. -/
def setProp (ps : List (String × PVal)) (k : String) (v : PVal) :
    List (String × PVal) :=
  if ps.any (fun p => p.1 == k) then ps.map (setEntry k v)
  else ps ++ [(k, v)]

/-- merge a property map into another (Cypher `SET n += props`). -/
def updateProps (ps : List (String × PVal)) (newPs : List (String × PVal)) :
    List (String × PVal) :=
  newPs.foldl (fun acc p => setProp acc p.1 p.2) ps

/-- does the node carry the given label and id? -/
def nodeMatches (label id : String) (n : GNode) : Bool :=
  n.label == label && n.id == id

/-- property of a node. -/
def getProp (n : GNode) (k : String) : Option PVal :=
  lookupProps n.props k

/-- does the edge carry the given type and endpoints? -/
def relKey (typ srcLabel srcId dstLabel dstId : String) (e : GEdge) : Bool :=
  e.typ == typ && e.srcLabel == srcLabel && e.srcId == srcId &&
  e.dstLabel == dstLabel && e.dstId == dstId

/-- does an edge of the given type exist between the addressed nodes? -/
def hasRel (st : GraphState) (typ srcLabel srcId dstLabel dstId : String) : Bool :=
  st.edges.any (relKey typ srcLabel srcId dstLabel dstId)

/-- the effect of `SET old.status = 'obsolete', old.valid_until = $now`
on a bound node. -/
def obsoleteStamp (now : ℚ) (n : GNode) : GNode :=
  { n with props := setProp (setProp n.props "status" (.s "obsolete"))
                      "valid_until" (.n now) }

/-- the effect of `SET r.timestamp = $now` on a bound relationship. -/
def supersedesStamp (now : ℚ) (e : GEdge) : GEdge :=
  { e with props := setProp e.props "timestamp" (.n now) }

/-- MemoryManager.supersede_node: MATCH both nodes, mark the old one
obsolete with a valid_until timestamp, and MERGE a SUPERSEDES edge from
the new node to the old one carrying the timestamp. If either MATCH
fails the query binds no rows and the state is unchanged. -/
def supersede_node (st : GraphState) (old_node_id new_node_id label : String)
    (now : ℚ) : GraphState :=
  if st.nodes.any (nodeMatches label old_node_id) &&
     st.nodes.any (nodeMatches label new_node_id) then
    { nodes := st.nodes.map (fun n =>
        if nodeMatches label old_node_id n then obsoleteStamp now n else n)
      edges :=
        if st.edges.any (relKey "SUPERSEDES" label new_node_id label old_node_id) then
          st.edges.map (fun e =>
            if relKey "SUPERSEDES" label new_node_id label old_node_id e then
              supersedesStamp now e
            else e)
        else
          st.edges ++ [⟨"SUPERSEDES", label, new_node_id, label, old_node_id,
                        [("timestamp", .n now)]⟩] }
  else st

/-- the effect of `MERGE (n:label {id}) SET n += $props` on a matched
node. -/
def mergeNodeProps (label nid : String) (props3 : List (String × PVal))
    (n : GNode) : GNode :=
  if nodeMatches label nid n then { n with props := updateProps n.props props3 }
  else n

/-- MemoryManager.add_graph_node: default `id` (a generated UUID, here an
oracle input), `valid_from` and `status` when absent, then
`MERGE (n:label {id: $id}) SET n += $props`. Returns the state and the
enriched property map (the Python dict is mutated in place). -/
def add_graph_node (st : GraphState) (label : String)
    (props0 : List (String × PVal)) (nowT : ℚ) (freshId : String) :
    GraphState × List (String × PVal) :=
  let props1 := if (lookupProps props0 "id").isSome then props0
                else props0 ++ [("id", .s freshId)]
  let props2 := if (lookupProps props1 "valid_from").isSome then props1
                else props1 ++ [("valid_from", .n nowT)]
  let props3 := if (lookupProps props2 "status").isSome then props2
                else props2 ++ [("status", .s "active")]
  let nid := match lookupProps props3 "id" with
             | some (PVal.s s) => s
             | _ => freshId
  let st' :=
    if st.nodes.any (nodeMatches label nid) then
      { st with nodes := st.nodes.map (mergeNodeProps label nid props3) }
    else
      { st with nodes := st.nodes ++ [⟨label, nid, props3⟩] }
  (st', props3)

/-- MemoryManager.create_relationship: MATCH both endpoints and MERGE the
edge, then `SET r += props`. If either endpoint is missing the MATCH
fails and nothing happens. -/
def create_relationship (st : GraphState)
    (srcLabel srcId relType dstLabel dstId : String)
    (relProps : List (String × PVal)) : GraphState :=
  if st.nodes.any (nodeMatches srcLabel srcId) &&
     st.nodes.any (nodeMatches dstLabel dstId) then
    if st.edges.any (relKey relType srcLabel srcId dstLabel dstId) then
      { st with edges := st.edges.map (fun e =>
          if relKey relType srcLabel srcId dstLabel dstId e then
            { e with props := updateProps e.props relProps }
          else e) }
    else
      { st with edges := st.edges ++ [⟨relType, srcLabel, srcId, dstLabel, dstId, relProps⟩] }
  else st

/-- the six node labels of the comprehensive retrieval query. -/
def comprehensiveLabels : List String :=
  ["Preference", "Fact", "Entity", "Constraint", "Commitment", "Instruction"]

/-- the comprehensive active-node query of Pipeline.process_turn: MATCH the
user, then for each of the six labels collect the nodes linked by
`HAS_<LABEL>` whose `status` is 'active'. -/
def comprehensive_active_nodes (st : GraphState) (userId : String) : List GNode :=
  if st.nodes.any (nodeMatches "User" userId) then
    comprehensiveLabels.flatMap (fun L =>
      st.nodes.filter (fun n =>
        n.label == L && getProp n "status" == some (PVal.s "active") &&
        hasRel st ("HAS_" ++ strToUpper L) "User" userId L n.id))
  else []

/-! ## pipeline.py: Memory Gardener graph write-back for Fact nodes -/

/-- the match condition of the Gardener's duplicate-Fact check query: an
active Fact with the given statement linked to the user by HAS_FACT. -/
def factPred (st : GraphState) (uid stmt : String) (n : GNode) : Bool :=
  n.label == "Fact" && getProp n "status" == some (PVal.s "active") &&
  getProp n "statement" == some (PVal.s stmt) &&
  hasRel st "HAS_FACT" "User" uid "Fact" n.id

/-- the Gardener's duplicate-Fact check query: MATCH the user, follow
HAS_FACT to active Fact nodes whose `statement` equals the candidate,
and return their nodes (the query returns the ids). -/
def activeFactsFor (st : GraphState) (uid stmt : String) : List GNode :=
  if st.nodes.any (nodeMatches "User" uid) then
    st.nodes.filter (factPred st uid stmt)
  else []

/-- ids returned by the duplicate-Fact check query. -/
def fact_check_query (st : GraphState) (uid stmt : String) : List String :=
  (activeFactsFor st uid stmt).map (·.id)

/-- one Fact node of the Gardener's write-back loop
(Pipeline.run_async_update, Fact branch): a DELETE operation or obsolete
status archives the node by id; otherwise, when the statement is nonempty
and an active Fact with the same statement is already linked to the user,
the node is skipped; otherwise the node is added and linked with
HAS_FACT. In this branch the dedup query either returned nothing or
caused a skip, so supersede_node is never reached. -/
def gardener_write_fact (st : GraphState) (uid : String)
    (props : List (String × PVal)) (op : String) (nowT : ℚ) (freshId : String) :
    GraphState :=
  if op == "DELETE" || lookupProps props "status" == some (PVal.s "obsolete") then
    match lookupProps props "id" with
    | some (PVal.s nid) =>
      { st with nodes := st.nodes.map (fun n =>
          if nodeMatches "Fact" nid n then
            { n with props := setProp (setProp n.props "status" (.s "obsolete"))
                                "archived_at" (.n nowT) }
          else n) }
    | _ => st
  else
    let stmt := match lookupProps props "statement" with
                | some (PVal.s s) => s
                | _ => ""
    if stmt ≠ "" ∧ fact_check_query st uid stmt ≠ [] then st
    else
      let r := add_graph_node st "Fact" props nowT freshId
      let nid := match lookupProps r.2 "id" with
                 | some (PVal.s s) => s
                 | _ => freshId
      create_relationship r.1 "User" uid "HAS_FACT" "Fact" nid []

/-- the property map the Gardener extraction schema prescribes for a
Fact node. -/
def factProps (i s : String) : List (String × PVal) :=
  [("id", .s i), ("statement", .s s), ("status", .s "active")]

/-! ## pipeline.py: retrieval deduplication

`SequenceMatcher(None, a, b).ratio()` is external (difflib); the
similarity function is therefore a parameter `sim`, applied exactly as
the source applies it: `sim new existing` against every already-accepted
candidate. -/

/-- a retrieved vector chunk as handled by the pipeline. -/
structure Item where
  id : String
  content : String
deriving DecidableEq, Repr

/-- the accumulation loop of Pipeline._deduplicate_results: keep the new
item unless its similarity with an already-kept item exceeds the
threshold. -/
def dedupGo (sim : String → String → ℚ) (t : ℚ) :
    List Item → List Item → List Item
  | unique, [] => unique
  | unique, x :: rest =>
    if unique.any (fun ex => sim x.content ex.content > t) then
      dedupGo sim t unique rest
    else
      dedupGo sim t (unique ++ [x]) rest

/-- Pipeline._deduplicate_results. -/
def deduplicate_results (sim : String → String → ℚ) (results : List Item)
    (threshold : ℚ) : List Item :=
  dedupGo sim threshold [] results

/-! ## pipeline.py: Reconciliation and context building (Step 3)

A node returned by the comprehensive graph query is a property map
(Python dict of string values); a query row maps the six collection
keys to node lists. The emoji prefixes of the section headers are
presentation-only and omitted; section names and order are kept. -/

/-- a node as returned by the graph query: a string property map. -/
abbrev NodeMap := List (String × String)

/-- first value bound to a key (Python dict.get). -/
def nlookup : NodeMap → String → Option String
  | [], _ => none
  | p :: rest, q => if p.1 == q then some p.2 else nlookup rest q

/-- dict.get with a default. -/
def nget (n : NodeMap) (k d : String) : String := (nlookup n k).getD d

/-- one row of the comprehensive query result. -/
structure GraphRow where
  preferences : List NodeMap
  facts : List NodeMap
  entities : List NodeMap
  constraints : List NodeMap
  commitments : List NodeMap
  instructions : List NodeMap
deriving DecidableEq, Repr

/-- row keys in the order the reconciliation step iterates them. -/
def rowKeys : List String :=
  ["preferences", "facts", "entities", "constraints", "commitments", "instructions"]

/-- result.get(key, []). -/
def rowGet (r : GraphRow) (k : String) : List NodeMap :=
  if k == "preferences" then r.preferences
  else if k == "facts" then r.facts
  else if k == "entities" then r.entities
  else if k == "constraints" then r.constraints
  else if k == "commitments" then r.commitments
  else if k == "instructions" then r.instructions
  else []

/-- the structured_graph filter of Step 3: take the first result row and
keep only nodes that are truthy dicts whose status is not 'obsolete'. -/
def structured_graph (graphResults : List GraphRow) (key : String) : List NodeMap :=
  match graphResults with
  | [] => []
  | r :: _ =>
    (rowGet r key).filter (fun n => !n.isEmpty && nlookup n "status" != some "obsolete")

/-- the bullet prefix used by format_nodes. -/
def bulletPre : String := "  • "

/-- the line(s) a single node contributes in format_nodes. The
Instructions branch of the source computes fields but never appends a
line, so Instruction nodes contribute nothing. -/
def formatLine (nodeType : String) (node : NodeMap) : List String :=
  if nodeType == "Preferences" then
    [bulletPre ++ nget node "name" "Unknown" ++ ": " ++ nget node "value" "N/A"]
  else if nodeType == "Facts" then
    match nlookup node "statement" with
    | some s => [bulletPre ++ s]
    | none =>
      match nlookup node "description" with
      | some d =>
        let v := nget node "value" ""
        [if v ≠ "" then bulletPre ++ d ++ ": " ++ v else bulletPre ++ d]
      | none =>
        [bulletPre ++ nget node "name"
          (String.intercalate ", " (node.map (fun p => p.1 ++ ": " ++ p.2)))]
  else if nodeType == "Entities" then
    let name := nget node "name" "Unknown"
    let ty := nget node "type" "unknown type"
    let ctx := nget node "context" ""
    [if ctx ≠ "" then bulletPre ++ name ++ " (" ++ ty ++ ") - " ++ ctx
     else bulletPre ++ name ++ " (" ++ ty ++ ")"]
  else if nodeType == "Constraints" then
    [bulletPre ++ nget node "name" "Unknown" ++ ": " ++ nget node "description" "N/A"]
  else if nodeType == "Commitments" then
    let d := nget node "description" "N/A"
    let due := nget node "due_date" "Not set"
    [if due ≠ "" ∧ due ≠ "Not set" then bulletPre ++ d ++ " [Due: " ++ due ++ "]"
     else bulletPre ++ d]
  else []

/-- format_nodes from Step 3. -/
def format_nodes (nodes : List NodeMap) (nodeType : String) : String :=
  if nodes.isEmpty then "  No " ++ nodeType ++ " recorded."
  else String.intercalate "\n" (nodes.map (formatLine nodeType)).flatten

/-- the fixed section list of the Step 3 context block, rendered in source
order: the six graph sections then the semantic-memory section. -/
def context_sections (graphResults : List GraphRow) (vectorResults : List Item) :
    List (String × String) :=
  [("PREFERENCES", format_nodes (structured_graph graphResults "preferences") "Preferences"),
   ("FACTS", format_nodes (structured_graph graphResults "facts") "Facts"),
   ("ENTITIES", format_nodes (structured_graph graphResults "entities") "Entities"),
   ("CONSTRAINTS", format_nodes (structured_graph graphResults "constraints") "Constraints"),
   ("COMMITMENTS", format_nodes (structured_graph graphResults "commitments") "Commitments"),
   ("INSTRUCTIONS", format_nodes (structured_graph graphResults "instructions") "Instructions"),
   ("SEMANTIC MEMORY",
     if vectorResults.isEmpty then "  No recent semantic context."
     else String.intercalate "\n" (vectorResults.map (fun it => bulletPre ++ it.content)))]

/-- the rendered context block. -/
def context_str (graphResults : List GraphRow) (vectorResults : List Item) : String :=
  String.intercalate "\n\n"
    ((context_sections graphResults vectorResults).map (fun p => p.1 ++ ":\n" ++ p.2))

/-! ## pipeline.py: Gardener semantic filter (Sub-step 6a)

The decision whether the extracted summary is written to the vector
store. In the source, when the summary matches a chunk of the retrieved
context the guarded lookup is skipped, leaving `existing_results`
unassigned while the following check still references it: that raises
UnboundLocalError, which the surrounding try/except absorbs, so nothing
is saved. The model keeps that control flow. -/

/-- result of the fresh nearest-neighbour lookup
(search_vector_memory(summary, n_results=1)). -/
structure LookupRes where
  documents : List (List String)
  distances : List (List ℚ)
deriving DecidableEq, Repr

/-- the retrieved-context check of Sub-step 6a: should_save after the
first loop - false exactly when the stripped summary equals a stripped
chunk of the retrieved context. -/
def ctxSave (retrievedVector : Option (List Item)) (summary : String) : Bool :=
  match retrievedVector with
  | none => true
  | some items =>
    !(items.any (fun it => pyStrip summary == pyStrip it.content))

/-- the distance arm of the nearest-neighbour check: false when the top
distance is below the 0.5 L2 threshold. -/
def distSave (res : LookupRes) : Bool :=
  match res.distances with
  | [] => true
  | dist0 :: _ =>
    match dist0 with
    | [] => true
    | dv :: _ => if dv < 1 / 2 then false else true

/-- the nearest-neighbour check of Sub-step 6a: should_save after the
second block - false on an exact (stripped) match of the top document,
or an L2 distance below 0.5. -/
def lookupSave (summary : String) (res : LookupRes) : Bool :=
  match res.documents with
  | [] => true
  | d0 :: _ =>
    match d0 with
    | [] => true
    | doc :: _ =>
      if pyStrip doc == pyStrip summary then false
      else distSave res

/-- the save decision of Sub-step 6a, given the vector part of the
retrieved context (None when absent), the summary, and the lookup
result; errors model raised exceptions (the guarded lookup leaves
`existing_results` unassigned when the context check already failed, and
the unconditional second check then raises UnboundLocalError). -/
def semantic_filter_decide (retrievedVector : Option (List Item))
    (summary : String) (lookup : LookupRes) : Except PyErr Bool :=
  match (if ctxSave retrievedVector summary then some lookup else none) with
  | none => .error .unboundLocalErr
  | some res => .ok (lookupSave summary res)

/-- whether Sub-step 6a writes a new chunk: the decision, with the outer
try/except of the sub-step turning any raised exception into a skip. -/
def semantic_filter_saves (retrievedVector : Option (List Item))
    (summary : String) (lookup : LookupRes) : Bool :=
  match semantic_filter_decide retrievedVector summary lookup with
  | .ok b => b
  | .error _ => false

/-! ## pipeline.py: Pipeline.process_turn (Steps 0-5)

External calls are oracle inputs; each one either returns a value or
raises (`Except.error`). Pipeline.__init__ always assigns a non-None
self.fast_llm (Groq, or the local model with Groq fallback), so the
synthesis path of Step 4 is the one modelled, matching `llm_to_use =
self.fast_llm`. generate_json results are given in the structured shape
the code reads out of them (a missing key reads as its falsy default);
the prompt and model-name strings stored in the log entries are
presentation-only and omitted from the log payloads. -/

/-- the fields process_turn reads from the Step 0 generate_json result. -/
structure TemporalCheck where
  is_override : Bool
  target_node_label : Option String
  conflict_summary : Option String
deriving DecidableEq, Repr

/-- the fields process_turn reads from the Step 1 planner result. -/
structure PlannerResp where
  search_terms : List String
  needs_search : Bool
deriving DecidableEq, Repr

/-- a ChromaDB query result: parallel nested lists of documents and ids. -/
structure VecQueryRes where
  documents : List (List String)
  ids : List (List String)
deriving DecidableEq, Repr

/-- grounding citations: (title, url) pairs. -/
abbrev GroundingMeta := List (String × String)

/-- a generate_text result when return_full_response was requested: the
provider returns either a plain sentinel string or the full dict. -/
inductive GenFull where
  | plain (s : String)
  | full (text : String) (grounding : Option GroundingMeta)
deriving DecidableEq, Repr

/-- the external calls process_turn performs, as oracle inputs. `sim` is
difflib's SequenceMatcher ratio. -/
structure Oracle where
  temporalJson : Except PyErr TemporalCheck
  plannerJson : Except PyErr PlannerResp
  vectorSearch : String → Except PyErr VecQueryRes
  graphQuery : Except PyErr (List GraphRow)
  synthesisText : Except PyErr String
  responseText : Except PyErr String
  responseSearch : Except PyErr GenFull
  sim : String → String → ℚ

/-- the MemoryManager surface process_turn relies on. -/
structure MMIface where
  ensure_user_exists : Except PyErr Unit

/-- the methods MemoryManager actually defines (memory_manager.py). -/
def memory_manager_methods : List String :=
  ["close", "add_vector_memory", "search_vector_memory", "run_graph_query",
   "add_graph_node", "supersede_node", "create_relationship"]

/-- the MemoryManager as shipped: `pipeline.process_turn` calls
`ensure_user_exists`, and Python attribute lookup on the instance raises
AttributeError exactly when the class defines no such method. -/
def realMemoryManager : MMIface :=
  ⟨if "ensure_user_exists" ∈ memory_manager_methods then .ok ()
    else .error (.attributeErr
      "MemoryManager object has no attribute ensure_user_exists")⟩

/-- the log entries process_turn accumulates, one per stage event, in
order. -/
inductive StageLog where
  | step0 (tc : TemporalCheck)
  | step1 (p : PlannerResp)
  | step2GraphError (e : PyErr)
  | step2 (vector : List Item) (graph : List GraphRow) (terms : List String)
  | step3 (content : String)
  | step4 (content : String)
  | step5
deriving DecidableEq, Repr

/-- the step_logs field of the response: the success shape, or the
error shape {error, sub-logs} built by the except branch. -/
inductive StepLogs where
  | completed (entries : List StageLog)
  | failed (e : PyErr) (entries : List StageLog)
deriving DecidableEq, Repr

/-- models.ChatResponse. -/
structure ChatResponse where
  response : String
  context_used : String
  step_logs : StepLogs
  grounding_metadata : Option GroundingMeta
deriving DecidableEq, Repr

/-- the fixed apology string of the orchestrator's error boundary. -/
def apology_text : String :=
  "I\x27m currently experiencing system issues. Please try again in a moment."

/-- the per-document loop of Step 2: pair documents with ids (indexing
ids[j] raises IndexError when the id list is shorter), skip ids already
seen, then fuzzy-drop against the accepted items at threshold 0.85. -/
def procDocs (sim : String → String → ℚ) :
    List String → List String → List Item → List String →
    Except PyErr (List Item × List String)
  | [], _, acc, seen => .ok (acc, seen)
  | _ :: _, [], _, _ => .error .indexErr
  | doc :: rest, docId :: idRest, acc, seen =>
    if seen.contains docId then procDocs sim rest idRest acc seen
    else if acc.any (fun ex => sim doc ex.content > 85 / 100) then
      procDocs sim rest idRest acc seen
    else procDocs sim rest idRest (acc ++ [⟨docId, doc⟩]) (seen ++ [docId])

/-- the per-result-list loop of Step 2 (enumerate over res.documents,
indexing res.ids[i]). -/
def procDocLists (sim : String → String → ℚ) :
    List (List String) → List (List String) → List Item → List String →
    Except PyErr (List Item × List String)
  | [], _, acc, seen => .ok (acc, seen)
  | _ :: _, [], _, _ => .error .indexErr
  | docs :: rest, ids :: idsRest, acc, seen =>
    match procDocs sim docs ids acc seen with
    | .error e => .error e
    | .ok (a, s) => procDocLists sim rest idsRest a s

/-- the per-term loop of Step 2: query the vector store for each search
term and accumulate, skipping results with empty documents or ids. -/
def procTerms (o : Oracle) :
    List String → List Item → List String →
    Except PyErr (List Item × List String)
  | [], acc, seen => .ok (acc, seen)
  | term :: rest, acc, seen =>
    match o.vectorSearch term with
    | .error e => .error e
    | .ok res =>
      if !res.documents.isEmpty && !res.ids.isEmpty then
        match procDocLists o.sim res.documents res.ids acc seen with
        | .error e => .error e
        | .ok (a, s) => procTerms o rest a s
      else procTerms o rest acc seen

/-- the body of Pipeline.process_turn inside its try block: the stage
sequence with the logs accumulated so far, ending in either the success
payload (final response, synthesis text, grounding metadata) or the
first exception to reach the orchestrator boundary. The inner try/except
around the graph query absorbs its failure, logs it, and continues with
empty graph results. -/
def process_turn_body (mm : MMIface) (o : Oracle) :
    List StageLog × Except PyErr (String × String × Option GroundingMeta) :=
  match o.temporalJson with
  | .error e => ([], .error e)
  | .ok tc =>
    let l0 := [StageLog.step0 tc]
    match o.plannerJson with
    | .error e => (l0, .error e)
    | .ok pl =>
      let l1 := l0 ++ [StageLog.step1 pl]
      match mm.ensure_user_exists with
      | .error e => (l1, .error e)
      | .ok _ =>
        match procTerms o pl.search_terms [] [] with
        | .error e => (l1, .error e)
        | .ok (raw, _) =>
          let vec := (deduplicate_results o.sim raw (85 / 100)).take 10
          let gq := o.graphQuery
          let l2a := match gq with
            | .error e => l1 ++ [StageLog.step2GraphError e]
            | .ok _ => l1
          let graphRows := match gq with
            | .error _ => ([] : List GraphRow)
            | .ok rows => rows
          let l2 := l2a ++ [StageLog.step2 vec graphRows pl.search_terms]
          let ctx := context_str graphRows vec
          let l3 := l2 ++ [StageLog.step3 ctx]
          match o.synthesisText with
          | .error e => (l3, .error e)
          | .ok syn =>
            let l4 := l3 ++ [StageLog.step4 syn]
            let l5 := l4 ++ [StageLog.step5]
            if pl.needs_search then
              match o.responseSearch with
              | .error e => (l5, .error e)
              | .ok (.plain s) => (l5, .ok (s, syn, none))
              | .ok (.full t g) => (l5, .ok (t, syn, g))
            else
              match o.responseText with
              | .error e => (l5, .error e)
              | .ok fin => (l5, .ok (fin, syn, none))

/-- Pipeline.process_turn: the try body, with the except branch returning
the fixed apology response carrying the partial logs. The user message
and user id shape only the prompt strings, which the model omits. -/
def process_turn (mm : MMIface) (o : Oracle) (user_message user_id : String) :
    ChatResponse :=
  match process_turn_body mm o with
  | (lgs, .ok (fin, syn, meta)) => ⟨fin, syn, .completed lgs, meta⟩
  | (lgs, .error e) => ⟨apology_text, "Error during processing.", .failed e lgs, none⟩

/-! ## main.py: the /chat endpoint call -/

/-- the positional parameters of Pipeline.process_turn (self excluded),
from its def line. -/
def process_turn_params : List String := ["user_message", "user_id"]

/-- models.ChatRequest. -/
structure ChatRequest where
  message : String
  user_id : String
  conversation_id : Option String
deriving DecidableEq, Repr

/-- an argument of the Python call. -/
inductive PyArg where
  | strA (s : String)
  | optA (s : Option String)
deriving DecidableEq, Repr

/-- the positional arguments chat_endpoint passes to process_turn. -/
def chat_endpoint_call_args (req : ChatRequest) : List PyArg :=
  [.strA req.message, .strA req.user_id, .optA req.conversation_id]

/-- a Python call of process_turn: binding the arguments raises TypeError
at the call site - outside the callee's try/except - when the count does
not match the signature; only then does the body run. -/
def call_process_turn (mm : MMIface) (o : Oracle) (args : List PyArg) :
    Except PyErr ChatResponse :=
  if args.length = process_turn_params.length then
    match args with
    | [PyArg.strA msg, PyArg.strA uid] => .ok (process_turn mm o msg uid)
    | _ => .error .typeErr
  else .error .typeErr

/-- the /chat endpoint's invocation of the pipeline (main.py line 55). An
error escapes to the framework as an unhandled exception. -/
def chat_endpoint (mm : MMIface) (o : Oracle) (req : ChatRequest) :
    Except PyErr ChatResponse :=
  call_process_turn mm o (chat_endpoint_call_args req)

/-! ## Concrete inputs used by witnesses -/

/-- an equality-based similarity: 1 for equal contents, 0 otherwise. -/
def simEq : String → String → ℚ :=
  fun a b => if a == b then 1 else 0

/-- a memory manager whose ensure_user_exists succeeds (for exercising the
orchestrator boundary on other stages). -/
def okMM : MMIface := ⟨.ok ()⟩

/-- an oracle whose very first stage call raises. -/
def failingOracle : Oracle :=
  { temporalJson := .error (.exc "boom")
    plannerJson := .ok ⟨[], false⟩
    vectorSearch := fun _ => .ok ⟨[], []⟩
    graphQuery := .ok []
    synthesisText := .ok ""
    responseText := .ok ""
    responseSearch := .ok (.plain "")
    sim := simEq }

/-- a small graph: one user, an old and a new Fact, and a HAS_FACT link
to the old Fact. -/
def wGraph : GraphState :=
  ⟨[⟨"User", "u1", []⟩,
    ⟨"Fact", "f_old", [("statement", .s "likes tea"), ("status", .s "active")]⟩,
    ⟨"Fact", "f_new", [("statement", .s "likes coffee"), ("status", .s "active")]⟩],
   [⟨"HAS_FACT", "User", "u1", "Fact", "f_old", []⟩]⟩

/-- a graph holding only a user node. -/
def userOnlyGraph : GraphState := ⟨[⟨"User", "u1", []⟩], []⟩

/-- a graph row carrying one obsolete and one active preference. -/
def wRow : GraphRow :=
  { preferences := [[("name", "lang"), ("value", "Rust"), ("status", "obsolete")],
                    [("name", "lang"), ("value", "Go"), ("status", "active")]]
    facts := []
    entities := []
    constraints := []
    commitments := []
    instructions := [] }

end NeuroHack

namespace NeuroHack

/-! ## Theorems -/

/-! ### Generic lemmas about the embedded operations -/

theorem dedupGo_append (sim : String → String → ℚ) (t : ℚ) :
    ∀ (l₁ l₂ : List Item) (acc : List Item),
      dedupGo sim t acc (l₁ ++ l₂) = dedupGo sim t (dedupGo sim t acc l₁) l₂ := by
  intro l₁
  induction l₁ with
  | nil => intro l₂ acc; rfl
  | cons x rest ih =>
    intro l₂ acc
    by_cases h : acc.any (fun ex => sim x.content ex.content > t)
    · simp only [List.cons_append, dedupGo, if_pos h]
      exact ih l₂ acc
    · simp only [List.cons_append, dedupGo, if_neg h]
      exact ih l₂ (acc ++ [x])

theorem dedupGo_sublist (sim : String → String → ℚ) (t : ℚ) :
    ∀ (rest acc : List Item), (dedupGo sim t acc rest).Sublist (acc ++ rest) := by
  intro rest
  induction rest with
  | nil => intro acc; simp [dedupGo]
  | cons x xs ih =>
    intro acc
    by_cases h : acc.any (fun ex => sim x.content ex.content > t)
    · simp only [dedupGo, if_pos h]
      exact (ih acc).trans ((List.sublist_cons_self x xs).append_left acc)
    · simp only [dedupGo, if_neg h]
      have := ih (acc ++ [x])
      simpa [List.append_assoc] using this

theorem dedupGo_pairwise (sim : String → String → ℚ) (t : ℚ) :
    ∀ (rest acc : List Item),
      acc.Pairwise (fun a b => sim b.content a.content ≤ t) →
      (dedupGo sim t acc rest).Pairwise (fun a b => sim b.content a.content ≤ t) := by
  intro rest
  induction rest with
  | nil => intro acc h; exact h
  | cons x xs ih =>
    intro acc h
    by_cases hx : acc.any (fun ex => sim x.content ex.content > t)
    · simp only [dedupGo, if_pos hx]
      exact ih acc h
    · simp only [dedupGo, if_neg hx]
      refine ih (acc ++ [x]) ?_
      rw [List.pairwise_append]
      refine ⟨h, List.pairwise_singleton _ _, ?_⟩
      intro a ha b hb
      simp only [List.mem_singleton] at hb
      subst hb
      simp only [List.any_eq_true, not_exists, not_and] at hx
      have := hx a ha
      simpa using this

theorem mem_dedupGo_of_mem_acc (sim : String → String → ℚ) (t : ℚ) :
    ∀ (rest acc : List Item) (y : Item), y ∈ acc → y ∈ dedupGo sim t acc rest := by
  intro rest
  induction rest with
  | nil => intro acc y hy; exact hy
  | cons x xs ih =>
    intro acc y hy
    by_cases hx : acc.any (fun ex => sim x.content ex.content > t)
    · simp only [dedupGo, if_pos hx]
      exact ih acc y hy
    · simp only [dedupGo, if_neg hx]
      exact ih (acc ++ [x]) y (List.mem_append_left _ hy)

/-! ### C3 -/

/-- C3: in the output of Retrieval's deduplication no two surviving chunks
have similarity above the threshold (each later survivor scores at most
the threshold against each earlier survivor, exactly the comparison the
code performs), the output preserves retrieval order (it is a sublist of
the input), a candidate whose similarity with an already-accepted
earlier chunk exceeds the threshold is dropped (the result is as if that
candidate were absent), and an accepted chunk survives all later
candidates. -/
theorem C3_dedup_threshold (sim : String → String → ℚ) (t : ℚ) (results : List Item) :
    (deduplicate_results sim results t).Sublist results ∧
    (deduplicate_results sim results t).Pairwise
      (fun a b => sim b.content a.content ≤ t) ∧
    (∀ l₁ x l₂, results = l₁ ++ x :: l₂ →
      (∃ y ∈ deduplicate_results sim l₁ t, sim x.content y.content > t) →
      deduplicate_results sim results t = deduplicate_results sim (l₁ ++ l₂) t) ∧
    (∀ l₁ l₂, results = l₁ ++ l₂ →
      ∀ y ∈ deduplicate_results sim l₁ t, y ∈ deduplicate_results sim results t) := by
  refine ⟨?_, ?_, ?_, ?_⟩
  · simpa using dedupGo_sublist sim t results []
  · exact dedupGo_pairwise sim t results [] (List.Pairwise.nil)
  · intro l₁ x l₂ hsplit hdrop
    subst hsplit
    have hx : ((dedupGo sim t [] l₁).any
        (fun ex => sim x.content ex.content > t)) = true := by
      rcases hdrop with ⟨y, hy, hgt⟩
      exact List.any_eq_true.mpr ⟨y, hy, by simpa using hgt⟩
    unfold deduplicate_results
    rw [dedupGo_append, dedupGo_append]
    simp only [dedupGo]
    rw [hx]
    simp
  · intro l₁ l₂ hsplit y hy
    subst hsplit
    unfold deduplicate_results
    rw [dedupGo_append]
    exact mem_dedupGo_of_mem_acc sim t l₂ _ y hy

/-- witness for C3 at a concrete input: the second of two identical chunks
is dropped and the first survives. -/
theorem C3_dedup_threshold_witness :
    deduplicate_results simEq [⟨"1", "a"⟩, ⟨"2", "a"⟩] (85 / 100) =
      deduplicate_results simEq [⟨"1", "a"⟩] (85 / 100) :=
  (C3_dedup_threshold simEq (85 / 100) [⟨"1", "a"⟩, ⟨"2", "a"⟩]).2.2.1
    [⟨"1", "a"⟩] ⟨"2", "a"⟩ [] rfl
    ⟨⟨"1", "a"⟩, by decide, by norm_num [simEq]⟩

/-! ### Lemmas about property maps and graph nodes -/

theorem lookup_mapSet_self (ps : List (String × PVal)) (k : String) (v : PVal)
    (h : ps.any (fun p => p.1 == k) = true) :
    lookupProps (ps.map (setEntry k v)) k = some v := by
  induction ps with
  | nil => simp at h
  | cons p rest ih =>
    rw [List.any_cons, Bool.or_eq_true] at h
    by_cases hp : (p.1 == k) = true
    · rw [List.map_cons, lookupProps]
      rw [show setEntry k v p = (k, v) from by rw [setEntry, if_pos hp]]
      simp [lookupProps]
    · rw [List.map_cons, lookupProps]
      rw [show setEntry k v p = p from by rw [setEntry, if_neg hp]]
      rw [if_neg hp]
      rcases h with h | h
      · exact absurd h hp
      · exact ih h

theorem lookup_append_self (ps : List (String × PVal)) (k : String) (v : PVal)
    (h : ps.any (fun p => p.1 == k) = false) :
    lookupProps (ps ++ [(k, v)]) k = some v := by
  induction ps with
  | nil => simp [lookupProps]
  | cons p rest ih =>
    rw [List.any_cons, Bool.or_eq_false_iff] at h
    rw [List.cons_append, lookupProps, if_neg (by simp [h.1])]
    exact ih h.2

theorem lookup_mapSet_other (ps : List (String × PVal)) (k : String) (v : PVal)
    (q : String) (h : q ≠ k) :
    lookupProps (ps.map (setEntry k v)) q = lookupProps ps q := by
  induction ps with
  | nil => rfl
  | cons p rest ih =>
    rw [List.map_cons, lookupProps, lookupProps]
    by_cases hp : (p.1 == k) = true
    · rw [show setEntry k v p = (k, v) from by rw [setEntry, if_pos hp]]
      have hp' : p.1 = k := by simpa using hp
      rw [if_neg (by simp [Ne.symm h] : ¬(((k, v) : String × PVal).1 == q) = true),
        if_neg (by simp [hp', Ne.symm h] : ¬(p.1 == q) = true)]
      exact ih
    · rw [show setEntry k v p = p from by rw [setEntry, if_neg hp]]
      by_cases hq : (p.1 == q) = true
      · rw [if_pos hq, if_pos hq]
      · rw [if_neg hq, if_neg hq]
        exact ih

theorem lookup_append_other (ps : List (String × PVal)) (k : String) (v : PVal)
    (q : String) (h : q ≠ k) :
    lookupProps (ps ++ [(k, v)]) q = lookupProps ps q := by
  induction ps with
  | nil =>
    have hkq : (k == q) = false := by simp [Ne.symm h]
    simp [lookupProps, hkq]
  | cons p rest ih =>
    rw [List.cons_append, lookupProps, lookupProps]
    by_cases hq : (p.1 == q) = true
    · rw [if_pos hq, if_pos hq]
    · rw [if_neg hq, if_neg hq]
      exact ih

theorem lookupProps_setProp_self (ps : List (String × PVal)) (k : String) (v : PVal) :
    lookupProps (setProp ps k v) k = some v := by
  unfold setProp
  by_cases h : (ps.any (fun p => p.1 == k)) = true
  · rw [if_pos h]
    exact lookup_mapSet_self ps k v h
  · rw [if_neg h]
    exact lookup_append_self ps k v (by rwa [Bool.not_eq_true] at h)

theorem lookupProps_setProp_other (ps : List (String × PVal)) (k : String) (v : PVal)
    (q : String) (h : q ≠ k) :
    lookupProps (setProp ps k v) q = lookupProps ps q := by
  unfold setProp
  split
  · exact lookup_mapSet_other ps k v q h
  · exact lookup_append_other ps k v q h

theorem nodeMatches_iff {label id : String} {n : GNode} :
    nodeMatches label id n = true ↔ n.label = label ∧ n.id = id := by
  simp [nodeMatches]

theorem getProp_obsoleteStamp_status (now : ℚ) (n : GNode) :
    getProp (obsoleteStamp now n) "status" = some (PVal.s "obsolete") := by
  show lookupProps _ "status" = _
  rw [obsoleteStamp]
  rw [lookupProps_setProp_other _ _ _ _ (by decide)]
  exact lookupProps_setProp_self _ _ _

theorem getProp_obsoleteStamp_valid (now : ℚ) (n : GNode) :
    getProp (obsoleteStamp now n) "valid_until" = some (PVal.n now) := by
  show lookupProps _ "valid_until" = _
  rw [obsoleteStamp]
  exact lookupProps_setProp_self _ _ _

/-! ### C1 -/

/-- C1: when both nodes are present in the graph (and node ids are
unique, as the generated UUID/extraction ids are), supersede_node leaves
the old node with status obsolete and valid_until set, creates the
SUPERSEDES edge from the new node to the old one, and the comprehensive
active-node query never returns the old id afterwards. -/
theorem C1_supersede_node (st : GraphState) (oldId newId label userId : String) (now : ℚ)
    (hOld : st.nodes.any (nodeMatches label oldId) = true)
    (hNew : st.nodes.any (nodeMatches label newId) = true)
    (hUniq : ∀ n ∈ st.nodes, ∀ m ∈ st.nodes, n.id = m.id → n = m) :
    (∃ n ∈ (supersede_node st oldId newId label now).nodes,
        n.label = label ∧ n.id = oldId ∧
        getProp n "status" = some (PVal.s "obsolete") ∧
        getProp n "valid_until" = some (PVal.n now)) ∧
    (∀ n ∈ (supersede_node st oldId newId label now).nodes,
        n.label = label → n.id = oldId →
        getProp n "status" = some (PVal.s "obsolete") ∧
        getProp n "valid_until" = some (PVal.n now)) ∧
    (∃ e ∈ (supersede_node st oldId newId label now).edges,
        e.typ = "SUPERSEDES" ∧ e.srcLabel = label ∧ e.srcId = newId ∧
        e.dstLabel = label ∧ e.dstId = oldId) ∧
    (∀ n ∈ comprehensive_active_nodes (supersede_node st oldId newId label now) userId,
        n.id ≠ oldId) := by
  have hcond : (st.nodes.any (nodeMatches label oldId) &&
      st.nodes.any (nodeMatches label newId)) = true := by
    simp [hOld, hNew]
  have hnodes : (supersede_node st oldId newId label now).nodes =
      st.nodes.map (fun n =>
        if nodeMatches label oldId n then obsoleteStamp now n else n) := by
    unfold supersede_node
    rw [if_pos hcond]
  have hall : ∀ n ∈ (supersede_node st oldId newId label now).nodes,
      n.label = label → n.id = oldId →
      getProp n "status" = some (PVal.s "obsolete") ∧
      getProp n "valid_until" = some (PVal.n now) := by
    intro n hn hlab hid
    rw [hnodes] at hn
    rcases List.mem_map.mp hn with ⟨m, hm, hfm⟩
    by_cases hmm : nodeMatches label oldId m = true
    · rw [if_pos hmm] at hfm
      rw [← hfm]
      exact ⟨getProp_obsoleteStamp_status now m, getProp_obsoleteStamp_valid now m⟩
    · rw [if_neg hmm] at hfm
      subst hfm
      exact absurd (nodeMatches_iff.mpr ⟨hlab, hid⟩) hmm
  refine ⟨?_, hall, ?_, ?_⟩
  · rcases List.any_eq_true.mp hOld with ⟨m, hm, hmm⟩
    rcases nodeMatches_iff.mp hmm with ⟨hlab, hid⟩
    refine ⟨obsoleteStamp now m, ?_, hlab, hid,
      getProp_obsoleteStamp_status now m, getProp_obsoleteStamp_valid now m⟩
    rw [hnodes]
    exact List.mem_map.mpr ⟨m, hm, by simp [hmm]⟩
  · have hedges : (supersede_node st oldId newId label now).edges =
        (if st.edges.any (relKey "SUPERSEDES" label newId label oldId) then
          st.edges.map (fun e =>
            if relKey "SUPERSEDES" label newId label oldId e then
              supersedesStamp now e
            else e)
        else st.edges ++ [⟨"SUPERSEDES", label, newId, label, oldId,
                          [("timestamp", .n now)]⟩]) := by
      unfold supersede_node
      rw [if_pos hcond]
    rw [hedges]
    split
    · next hany =>
      rcases List.any_eq_true.mp hany with ⟨e, he, hkey⟩
      have hkey' := hkey
      simp only [relKey, Bool.and_eq_true, beq_iff_eq] at hkey'
      refine ⟨supersedesStamp now e, ?_, ?_⟩
      · exact List.mem_map.mpr ⟨e, he, by simp [hkey]⟩
      · exact ⟨hkey'.1.1.1.1, hkey'.1.1.1.2, hkey'.1.1.2, hkey'.1.2, hkey'.2⟩
    · exact ⟨⟨"SUPERSEDES", label, newId, label, oldId, [("timestamp", .n now)]⟩,
        List.mem_append_right _ (by simp), rfl, rfl, rfl, rfl, rfl⟩
  · intro n hn
    unfold comprehensive_active_nodes at hn
    split at hn
    · rcases List.mem_flatMap.mp hn with ⟨L, hL, hfil⟩
      rcases List.mem_filter.mp hfil with ⟨hnmem, hpred⟩
      simp only [Bool.and_eq_true, beq_iff_eq] at hpred
      intro hid
      rw [hnodes] at hnmem
      rcases List.mem_map.mp hnmem with ⟨m, hm, hfm⟩
      by_cases hmm : nodeMatches label oldId m = true
      · rw [if_pos hmm] at hfm
        have hstat := getProp_obsoleteStamp_status now m
        rw [hfm, hpred.1.2] at hstat
        exact absurd hstat (by decide)
      · rw [if_neg hmm] at hfm
        subst hfm
        rcases List.any_eq_true.mp hOld with ⟨o, ho, hoo⟩
        rcases nodeMatches_iff.mp hoo with ⟨holab, hoid⟩
        have heqo : o = m := hUniq o ho m hm (by rw [hoid, hid])
        subst heqo
        exact absurd (nodeMatches_iff.mpr ⟨holab, hoid⟩) hmm
    · simp at hn

/-- witness for C1 on a concrete graph with an old and a new Fact. -/
theorem C1_supersede_node_witness :
    (wGraph.nodes.any (nodeMatches "Fact" "f_old") = true) ∧
    (wGraph.nodes.any (nodeMatches "Fact" "f_new") = true) ∧
    (∀ n ∈ wGraph.nodes, ∀ m ∈ wGraph.nodes, n.id = m.id → n = m) ∧
    (∀ n ∈ (supersede_node wGraph "f_old" "f_new" "Fact" 5).nodes,
        n.label = "Fact" → n.id = "f_old" →
        getProp n "status" = some (PVal.s "obsolete") ∧
        getProp n "valid_until" = some (PVal.n 5)) ∧
    (∀ n ∈ comprehensive_active_nodes (supersede_node wGraph "f_old" "f_new" "Fact" 5) "u1",
        n.id ≠ "f_old") :=
  ⟨by decide, by decide, by decide,
   (C1_supersede_node wGraph "f_old" "f_new" "Fact" "u1" 5 (by decide) (by decide)
     (by decide)).2.1,
   (C1_supersede_node wGraph "f_old" "f_new" "Fact" "u1" 5 (by decide) (by decide)
     (by decide)).2.2.2⟩

/-! ### C2 -/

theorem nodes_create_relationship (st : GraphState)
    (a b c d e : String) (ps : List (String × PVal)) :
    (create_relationship st a b c d e ps).nodes = st.nodes := by
  unfold create_relationship
  split
  · split <;> rfl
  · rfl

theorem hasRel_create_self (st : GraphState)
    (srcLabel srcId relType dstLabel dstId : String) (ps : List (String × PVal))
    (hsrc : st.nodes.any (nodeMatches srcLabel srcId) = true)
    (hdst : st.nodes.any (nodeMatches dstLabel dstId) = true) :
    hasRel (create_relationship st srcLabel srcId relType dstLabel dstId ps)
      relType srcLabel srcId dstLabel dstId = true := by
  unfold create_relationship
  rw [if_pos (by simp [hsrc, hdst])]
  split
  · next hany =>
    rcases List.any_eq_true.mp hany with ⟨e, he, hkey⟩
    show List.any _ _ = true
    refine List.any_eq_true.mpr ⟨_, List.mem_map.mpr ⟨e, he, rfl⟩, ?_⟩
    rw [if_pos hkey]
    exact hkey
  · show List.any _ _ = true
    refine List.any_eq_true.mpr ⟨_, List.mem_append_right _ (List.mem_singleton_self _), ?_⟩
    simp [relKey]

theorem hasRel_create_other (st : GraphState)
    (srcLabel srcId relType dstLabel dstId : String) (ps : List (String × PVal))
    (t' a' b' c' d' : String) (hne : d' ≠ dstId) :
    hasRel (create_relationship st srcLabel srcId relType dstLabel dstId ps)
      t' a' b' c' d' = hasRel st t' a' b' c' d' := by
  unfold create_relationship
  split
  · split
    · show List.any _ _ = _
      rw [List.any_map]
      congr 1
      funext e
      by_cases hk : relKey relType srcLabel srcId dstLabel dstId e = true
      · simp only [Function.comp_apply, if_pos hk]
        rfl
      · simp only [Function.comp_apply, if_neg hk]
    · show List.any _ _ = _
      rw [List.any_append]
      have hnew : relKey t' a' b' c' d'
          ⟨relType, srcLabel, srcId, dstLabel, dstId, ps⟩ = false := by
        simp only [relKey, Bool.and_eq_false_iff]
        right
        simp [Ne.symm hne]
      simp only [List.any_cons, List.any_nil, hnew, Bool.or_false]
      rfl
  · rfl

/-- C2 (amended): for a user present in the graph and a NONEMPTY Fact
statement, running the Gardener write-back twice with MERGE Fact nodes
carrying the same statement under fresh ids leaves exactly one active
Fact node with that statement linked to that user: the second write
finds the first one by exact statement match and changes nothing. (With
an empty statement the dedup check is bypassed; see the
counterexample.) -/
theorem C2_fact_dedup_amended (st : GraphState) (uid s i1 i2 : String) (now1 now2 : ℚ)
    (hs : s ≠ "")
    (hUser : st.nodes.any (nodeMatches "User" uid) = true)
    (hNone : activeFactsFor st uid s = [])
    (hFresh : st.nodes.any (nodeMatches "Fact" i1) = false) :
    gardener_write_fact (gardener_write_fact st uid (factProps i1 s) "MERGE" now1 i1)
        uid (factProps i2 s) "MERGE" now2 i2 =
      gardener_write_fact st uid (factProps i1 s) "MERGE" now1 i1 ∧
    (activeFactsFor
        (gardener_write_fact st uid (factProps i1 s) "MERGE" now1 i1) uid s).length = 1 := by
  have hq0 : fact_check_query st uid s = [] := by
    rw [fact_check_query, hNone]
    rfl
  have hA : (add_graph_node st "Fact" (factProps i1 s) now1 i1).1 =
      { st with nodes := st.nodes ++
          [⟨"Fact", i1, factProps i1 s ++ [("valid_from", PVal.n now1)]⟩] } := by
    have hdef : (add_graph_node st "Fact" (factProps i1 s) now1 i1).1 =
        if st.nodes.any (nodeMatches "Fact" i1) = true then
          { st with nodes := st.nodes.map (mergeNodeProps "Fact" i1 (factProps i1 s ++ [("valid_from", PVal.n now1)])) }
        else
          { st with nodes := st.nodes ++
              [⟨"Fact", i1, factProps i1 s ++ [("valid_from", PVal.n now1)]⟩] } := rfl
    rw [hdef, hFresh]
    simp
  have hst1 : gardener_write_fact st uid (factProps i1 s) "MERGE" now1 i1 =
      create_relationship
        { st with nodes := st.nodes ++
            [⟨"Fact", i1, factProps i1 s ++ [("valid_from", PVal.n now1)]⟩] }
        "User" uid "HAS_FACT" "Fact" i1 [] := by
    have hdef : gardener_write_fact st uid (factProps i1 s) "MERGE" now1 i1 =
        if s ≠ "" ∧ fact_check_query st uid s ≠ [] then st
        else create_relationship (add_graph_node st "Fact" (factProps i1 s) now1 i1).1
          "User" uid "HAS_FACT" "Fact" i1 [] := rfl
    rw [hdef, if_neg (fun h => h.2 hq0), hA]
  rw [hst1]
  set newNode : GNode :=
    ⟨"Fact", i1, factProps i1 s ++ [("valid_from", PVal.n now1)]⟩ with hnewNode
  set stMid : GraphState := { st with nodes := st.nodes ++ [newNode] } with hstMid
  set st1 : GraphState :=
    create_relationship stMid "User" uid "HAS_FACT" "Fact" i1 [] with hst1def
  have hnodes1 : st1.nodes = st.nodes ++ [newNode] := by
    rw [hst1def, nodes_create_relationship, hstMid]
  have hsrcMid : stMid.nodes.any (nodeMatches "User" uid) = true := by
    rw [hstMid]
    show (st.nodes ++ [newNode]).any _ = true
    rw [List.any_append, hUser]
    rfl
  have hdstMid : stMid.nodes.any (nodeMatches "Fact" i1) = true := by
    rw [hstMid]
    show (st.nodes ++ [newNode]).any _ = true
    rw [List.any_append]
    have hm : nodeMatches "Fact" i1 newNode = true := by
      simp [nodeMatches, hnewNode]
    simp [hm]
  have huser1 : st1.nodes.any (nodeMatches "User" uid) = true := by
    rw [hnodes1, List.any_append, hUser]
    rfl
  have hrelNew : hasRel st1 "HAS_FACT" "User" uid "Fact" i1 = true := by
    rw [hst1def]
    exact hasRel_create_self _ _ _ _ _ _ _ hsrcMid hdstMid
  have hrelOld : ∀ d', d' ≠ i1 →
      hasRel st1 "HAS_FACT" "User" uid "Fact" d' =
        hasRel st "HAS_FACT" "User" uid "Fact" d' := by
    intro d' hd
    rw [hst1def, hasRel_create_other stMid "User" uid "HAS_FACT" "Fact" i1 []
      "HAS_FACT" "User" uid "Fact" d' hd]
    rfl
  have holdFalse : ∀ n ∈ st.nodes, factPred st1 uid s n = false := by
    intro n hn
    have hnSt : factPred st uid s n = false := by
      have hx := hNone
      rw [activeFactsFor, if_pos hUser] at hx
      have hforall := List.filter_eq_nil_iff.mp hx n hn
      rwa [Bool.not_eq_true] at hforall
    by_cases hlab : (n.label == "Fact") = true
    · have hid : n.id ≠ i1 := by
        intro hEq
        have hc : st.nodes.any (nodeMatches "Fact" i1) = true :=
          List.any_eq_true.mpr ⟨n, hn, nodeMatches_iff.mpr ⟨by simpa using hlab, hEq⟩⟩
        rw [hc] at hFresh
        cases hFresh
      rw [factPred, hrelOld n.id hid]
      rw [factPred] at hnSt
      exact hnSt
    · rw [factPred] at hnSt ⊢
      rw [Bool.not_eq_true] at hlab
      rw [hlab] at hnSt ⊢
      simp
  have hnewTrue : factPred st1 uid s newNode = true := by
    rw [factPred]
    have h1 : (newNode.label == "Fact") = true := by
      rw [hnewNode]
      rfl
    have h2 : (getProp newNode "status" == some (PVal.s "active")) = true := by
      rw [hnewNode]
      simp [getProp, factProps, lookupProps]
    have h3 : (getProp newNode "statement" == some (PVal.s s)) = true := by
      rw [hnewNode]
      simp [getProp, factProps, lookupProps]
    have h4 : hasRel st1 "HAS_FACT" "User" uid "Fact" newNode.id = true := by
      have hnid : newNode.id = i1 := by rw [hnewNode]
      rw [hnid]
      exact hrelNew
    rw [h1, h2, h3, h4]
    rfl
  have hactive1 : activeFactsFor st1 uid s = [newNode] := by
    rw [activeFactsFor, if_pos huser1, hnodes1, List.filter_append]
    rw [List.filter_eq_nil_iff.mpr (fun n hn => by rw [holdFalse n hn]; simp)]
    rw [List.nil_append]
    rw [List.filter_cons_of_pos]
    · rfl
    · exact hnewTrue
  have hq1 : fact_check_query st1 uid s = [i1] := by
    rw [fact_check_query, hactive1]
    rfl
  have hskip : gardener_write_fact st1 uid (factProps i2 s) "MERGE" now2 i2 = st1 := by
    have hdef2 : gardener_write_fact st1 uid (factProps i2 s) "MERGE" now2 i2 =
        if s ≠ "" ∧ fact_check_query st1 uid s ≠ [] then st1
        else create_relationship (add_graph_node st1 "Fact" (factProps i2 s) now2 i2).1
          "User" uid "HAS_FACT" "Fact" i2 [] := rfl
    rw [hdef2, if_pos ⟨hs, by rw [hq1]; simp⟩]
  exact ⟨hskip, by rw [hactive1]; rfl⟩


/-- counterexample to C2 as stated: with an empty `statement` the
`if stmt:` guard skips the dedup query, so writing the same (empty)
statement twice under different ids leaves TWO active Fact nodes with
that statement for the user. -/
theorem C2_fact_dedup_counterexample :
    (activeFactsFor
        (gardener_write_fact
          (gardener_write_fact userOnlyGraph "u1" (factProps "f1" "") "MERGE" 1 "f1")
          "u1" (factProps "f2" "") "MERGE" 2 "f2")
        "u1" "").length = 2 := by decide

/-- witness for C2 (amended) at a concrete input. -/
theorem C2_fact_dedup_witness :
    ("likes jazz" ≠ "") ∧
    (userOnlyGraph.nodes.any (nodeMatches "User" "u1") = true) ∧
    (activeFactsFor userOnlyGraph "u1" "likes jazz" = []) ∧
    (userOnlyGraph.nodes.any (nodeMatches "Fact" "fact_a") = false) ∧
    (activeFactsFor (gardener_write_fact userOnlyGraph "u1"
        (factProps "fact_a" "likes jazz") "MERGE" 1 "fact_a") "u1" "likes jazz").length = 1 :=
  ⟨by decide, by decide, by decide, by decide,
   (C2_fact_dedup_amended userOnlyGraph "u1" "likes jazz" "fact_a" "fact_b" 1 2
     (by decide) (by decide) (by decide) (by decide)).2⟩

/-! ### Lemmas for the JSON recovery chain -/

theorem findIdxCh_lt_length {c : Char} :
    ∀ {l : List Char} {i : Nat}, findIdxCh c l = some i → i < l.length := by
  intro l
  induction l with
  | nil => intro i h; simp [findIdxCh] at h
  | cons x xs ih =>
    intro i h
    simp only [findIdxCh] at h
    by_cases hx : x = c
    · rw [if_pos hx] at h
      cases h
      simp
    · rw [if_neg hx] at h
      rcases Option.map_eq_some'.mp h with ⟨j, hj, hji⟩
      subst hji
      have := ih hj
      simp
      omega

theorem findIdxCh_drop {c : Char} :
    ∀ {l : List Char} {i : Nat}, findIdxCh c l = some i → ∃ t, l.drop i = c :: t := by
  intro l
  induction l with
  | nil => intro i h; simp [findIdxCh] at h
  | cons x xs ih =>
    intro i h
    simp only [findIdxCh] at h
    by_cases hx : x = c
    · rw [if_pos hx] at h
      cases h
      exact ⟨xs, by simp [hx]⟩
    · rw [if_neg hx] at h
      rcases Option.map_eq_some'.mp h with ⟨j, hj, hji⟩
      subst hji
      rcases ih hj with ⟨t, ht⟩
      exact ⟨t, by simpa using ht⟩

theorem skipWs_cons_brace (l : List Char) : skipWs ('\x7b' :: l) = '\x7b' :: l := by
  simp [skipWs, isJsonWs]

theorem parseValue_brace_isObj :
    ∀ (fuel : Nat) (cs rest : List Char) (v : JsonVal) (r : List Char),
      skipWs cs = '\x7b' :: rest → parseValue fuel cs = some (v, r) → v.isObj = true := by
  intro fuel cs rest v r hskip hpv
  cases fuel with
  | zero => simp [parseValue] at hpv
  | succ f =>
    simp only [parseValue, hskip] at hpv
    rw [if_pos trivial] at hpv
    split at hpv
    · cases hpv; rfl
    · rcases Option.map_eq_some'.mp hpv with ⟨p, hp, hpe⟩
      cases hpe
      rfl

theorem pyLoadsL_brace_isObj {tail : List Char} {v : JsonVal}
    (h : pyLoadsL ('\x7b' :: tail) = some v) : v.isObj = true := by
  unfold pyLoadsL at h
  split at h
  · next v' rest heq =>
    split at h
    · cases h
      exact parseValue_brace_isObj _ _ tail _ rest (skipWs_cons_brace tail) heq
    · cases h
  · cases h

theorem pyRfind_succ_ne (s : String) (c : Char) : pyRfind s c + 1 ≠ -1 := by
  unfold pyRfind
  split
  · next i heq =>
    have hlt := findIdxCh_lt_length heq
    simp only [List.length_reverse] at hlt
    omega
  · decide

/-! ### C6 -/

/-- C6 (amended): `_parse_json` is total (never raises) and follows the
recovery chain - strip fences, strict parse, brace-substring parse,
empty object - but the strict-parse branch returns whatever JSON
document parses, which need not be a dictionary; in every other case
the result is a dictionary (a parse of a string that starts at a brace
yields an object, and both failure fallbacks yield the empty object). -/
theorem C6_parse_json_total_amended (s : String) :
    (∃ v, pyLoads (stripFences s) = some v ∧ parse_json s = v) ∨
      (parse_json s).isObj = true := by
  rcases hL : pyLoads (stripFences s) with _ | v
  · right
    unfold parse_json
    rw [hL]
    rcases hf : findIdxCh '\x7b' (stripFences s).toList with _ | i
    · have hpf : pyFind (stripFences s) '\x7b' = -1 := by
        unfold pyFind
        rw [hf]
      rw [hpf]
      rfl
    · have hpf : pyFind (stripFences s) '\x7b' = (i : Int) := by
        unfold pyFind
        rw [hf]
      have hc1 : (i : Int) ≠ -1 := by omega
      have hc2 : pyRfind (stripFences s) '\x7d' + 1 ≠ -1 := pyRfind_succ_ne _ _
      rw [hpf, if_pos ⟨hc1, hc2⟩]
      rcases hL2 : pyLoads (pySlice (stripFences s) ((i : Nat) : Int)
          (pyRfind (stripFences s) '\x7d' + 1)) with _ | v2
      · rfl
      · show v2.isObj = true
        obtain ⟨tail, hdrop⟩ := findIdxCh_drop hf
        have hL2' : pyLoadsL (('\x7b' :: tail).take
            ((pyRfind (stripFences s) '\x7d' + 1).toNat - i)) = some v2 := by
          rw [← hL2]
          show pyLoadsL _ =
            pyLoadsL (((stripFences s).toList.drop ((i : Int)).toNat).take
              ((pyRfind (stripFences s) '\x7d' + 1).toNat - ((i : Int)).toNat))
          rw [Int.toNat_natCast, hdrop]
        rcases hk : (pyRfind (stripFences s) '\x7d' + 1).toNat - i with _ | m
        · rw [hk] at hL2'
          simp only [List.take_zero] at hL2'
          cases hL2'
        · rw [hk] at hL2'
          simp only [List.take_succ_cons] at hL2'
          exact pyLoadsL_brace_isObj hL2'
  · left
    exact ⟨v, rfl, by unfold parse_json; rw [hL]⟩

/-- counterexample to C6 as stated: `_parse_json` does not always return
a dictionary - on the valid JSON documents "[1, 2]" and "42" the strict
parse succeeds and the returned value is a list resp. a number. -/
theorem C6_parse_json_counterexample :
    (parse_json "[1, 2]").isObj = false ∧ (parse_json "42").isObj = false :=
  ⟨rfl, rfl⟩

/-! ### C7 -/

/-- C7 (code bug): the retry policy configured on the providers never
fires. The provider bodies catch every exception internally and return a
sentinel, so every call - rate-limited or transient - performs exactly
one attempt; a 429 yields the fixed degraded text (resp. the empty
object), but a non-429 transient failure is not retried either, contrary
to the configured 3-attempt backoff policy, and yields the interrupted
sentinel immediately. -/
theorem C7_retry_never_fires :
    (∀ raw, (gemini_generate_text raw).attempts = 1) ∧
    (∀ raw, (gemini_generate_json raw).attempts = 1) ∧
    (gemini_generate_text (fun _ => .error "503 Service Unavailable")).result =
      .ok ("Thinking process interrupted: " ++ "503 Service Unavailable") ∧
    (gemini_generate_text (fun _ => .error "429 RESOURCE_EXHAUSTED")).result =
      .ok gemini429Text ∧
    (gemini_generate_json (fun _ => .error "503 Service Unavailable")).result =
      .ok (JsonVal.obj []) ∧
    is_retryable_error "503 Service Unavailable" = true := by
  refine ⟨?_, ?_, ?_, ?_, ?_, ?_⟩
  · intro raw
    unfold gemini_generate_text tenacityRetry tenacityGo
    cases raw 1 with
    | ok t => rfl
    | error e => rfl
  · intro raw
    unfold gemini_generate_json tenacityRetry tenacityGo
    cases raw 1 with
    | ok t => rfl
    | error e => rfl
  · rfl
  · rfl
  · rfl
  · rfl

/-! ### C4 -/

/-- C4: the reconciliation step renders the sections in the fixed order
Preferences, Facts, Entities, Constraints, Commitments, Instructions,
Semantic Memory for every input, and the structured-graph lists feeding
the rendering never contain a node whose status is 'obsolete', even
when the query result carried one. (The renderer is a pure function, so
fixed inputs give the same block.) -/
theorem C4_reconciliation_order_and_filter (gr : List GraphRow) (vr : List Item) :
    ((context_sections gr vr).map Prod.fst =
      ["PREFERENCES", "FACTS", "ENTITIES", "CONSTRAINTS", "COMMITMENTS",
       "INSTRUCTIONS", "SEMANTIC MEMORY"]) ∧
    (∀ k : String, ∀ n ∈ structured_graph gr k, nlookup n "status" ≠ some "obsolete") := by
  constructor
  · rfl
  · intro k n hn
    unfold structured_graph at hn
    cases gr with
    | nil => simp at hn
    | cons r rest =>
      rcases List.mem_filter.mp hn with ⟨_, hpred⟩
      rw [Bool.and_eq_true] at hpred
      have := hpred.2
      simpa [bne] using this

/-- witness for C4 on a row carrying an obsolete and an active node. -/
theorem C4_reconciliation_witness :
    ((context_sections [wRow] []).map Prod.fst =
      ["PREFERENCES", "FACTS", "ENTITIES", "CONSTRAINTS", "COMMITMENTS",
       "INSTRUCTIONS", "SEMANTIC MEMORY"]) ∧
    nlookup [("name", "lang"), ("value", "Go"), ("status", "active")] "status" ≠
      some "obsolete" :=
  ⟨(C4_reconciliation_order_and_filter [wRow] []).1,
   (C4_reconciliation_order_and_filter [wRow] []).2 "preferences"
     [("name", "lang"), ("value", "Go"), ("status", "active")] (by decide)⟩

/-! ### C5 -/

/-- C5: whenever an exception escapes a stage of process_turn and reaches
the orchestrator boundary, the call returns (rather than propagating)
the ChatResponse carrying the fixed apology string and the stage logs
accumulated up to the failing stage. -/
theorem C5_error_boundary (mm : MMIface) (o : Oracle) (m u : String) (e : PyErr)
    (lgs : List StageLog)
    (h : process_turn_body mm o = (lgs, Except.error e)) :
    process_turn mm o m u =
      ⟨apology_text, "Error during processing.", StepLogs.failed e lgs, none⟩ := by
  unfold process_turn
  rw [h]

/-- witness for C5: an oracle whose first stage raises. -/
theorem C5_error_boundary_witness :
    process_turn_body okMM failingOracle = ([], Except.error (PyErr.exc "boom")) ∧
    process_turn okMM failingOracle "hello" "u1" =
      ⟨apology_text, "Error during processing.",
        StepLogs.failed (PyErr.exc "boom") [], none⟩ :=
  ⟨rfl, C5_error_boundary okMM failingOracle "hello" "u1" _ _ rfl⟩

/-! ### C8 -/

/-- C8: the Gardener's semantic filter writes no new chunk when the
summary exactly matches (modulo surrounding whitespace) a chunk of the
retrieved context - in the source that path raises UnboundLocalError,
absorbed by the sub-step's try/except, so nothing is saved - or when the
fresh nearest-neighbour lookup returns an exact stripped match or a top
L2 distance below 0.5. -/
theorem C8_semantic_filter_skips (rv : Option (List Item)) (summary : String)
    (lk : LookupRes)
    (h : (∃ items, rv = some items ∧ ∃ it ∈ items, pyStrip summary = pyStrip it.content) ∨
         ((∀ items, rv = some items → ∀ it ∈ items, pyStrip summary ≠ pyStrip it.content) ∧
          ∃ d0 rest1 rest2, lk.documents = (d0 :: rest1) :: rest2 ∧
            (pyStrip d0 = pyStrip summary ∨
             (pyStrip d0 ≠ pyStrip summary ∧
              ∃ dv dr1 dr2, lk.distances = (dv :: dr1) :: dr2 ∧ dv < 1 / 2)))) :
    semantic_filter_saves rv summary lk = false := by
  rcases h with ⟨items, hrv, it, hit, heq⟩ | ⟨hno, d0, r1, r2, hdocs, hcase⟩
  · have hctx : ctxSave rv summary = false := by
      rw [hrv, ctxSave]
      have hany : (items.any (fun x => pyStrip summary == pyStrip x.content)) = true :=
        List.any_eq_true.mpr ⟨it, hit, by simp [heq]⟩
      rw [hany]
      rfl
    unfold semantic_filter_saves semantic_filter_decide
    rw [hctx]
    rfl
  · have hctx : ctxSave rv summary = true := by
      cases hr : rv with
      | none => rfl
      | some items =>
        rw [ctxSave]
        have hany : (items.any (fun x => pyStrip summary == pyStrip x.content)) = false := by
          rw [List.any_eq_false]
          intro x hx
          simp [hno items hr x hx]
        rw [hany]
        rfl
    unfold semantic_filter_saves semantic_filter_decide
    rw [hctx]
    show lookupSave summary lk = false
    rw [lookupSave, hdocs]
    show (if pyStrip d0 == pyStrip summary then false else distSave lk) = false
    rcases hcase with heq | ⟨hne, dv, dr1, dr2, hdist, hlt⟩
    · have hb : (pyStrip d0 == pyStrip summary) = true := by simp [heq]
      rw [hb]
      rfl
    · have hb : (pyStrip d0 == pyStrip summary) = false := by simp [hne]
      rw [hb]
      show distSave lk = false
      rw [distSave, hdist]
      show (if dv < 1 / 2 then false else true) = false
      rw [if_pos hlt]

/-- witness for C8: the summary already sits in the retrieved context. -/
theorem C8_semantic_filter_skips_witness :
    semantic_filter_saves (some [⟨"1", "x"⟩]) "x" ⟨[], []⟩ = false :=
  C8_semantic_filter_skips (some [⟨"1", "x"⟩]) "x" ⟨[], []⟩
    (Or.inl ⟨[⟨"1", "x"⟩], rfl, ⟨"1", "x"⟩, by decide, rfl⟩)

/-! ### C9 -/

/-- C9: MemoryManager defines no method named ensure_user_exists, so the
attribute lookup in the Retrieval stage raises AttributeError on every
call that reaches it; the orchestrator boundary catches it, and
process_turn as shipped always returns the fixed apology response and
never a Completed one, whatever the oracle answers. -/
theorem C9_missing_ensure_user_exists (o : Oracle) (m u : String) :
    "ensure_user_exists" ∉ memory_manager_methods ∧
    (process_turn realMemoryManager o m u).response = apology_text ∧
    (∀ lgs, (process_turn realMemoryManager o m u).step_logs ≠ StepLogs.completed lgs) := by
  have hmm : realMemoryManager.ensure_user_exists =
      Except.error (PyErr.attributeErr
        "MemoryManager object has no attribute ensure_user_exists") := rfl
  refine ⟨by decide, ?_, ?_⟩
  · cases ht : o.temporalJson with
    | error e => simp [process_turn, process_turn_body, ht]
    | ok tc =>
      cases hp : o.plannerJson with
      | error e => simp [process_turn, process_turn_body, ht, hp]
      | ok pl => simp [process_turn, process_turn_body, ht, hp, hmm]
  · intro lgs
    cases ht : o.temporalJson with
    | error e => simp [process_turn, process_turn_body, ht]
    | ok tc =>
      cases hp : o.plannerJson with
      | error e => simp [process_turn, process_turn_body, ht, hp]
      | ok pl => simp [process_turn, process_turn_body, ht, hp, hmm]

/-! ### C10 -/

/-- C10: chat_endpoint calls process_turn with three positional arguments
against a two-parameter signature; binding fails with TypeError at the
call site, outside process_turn's internal try/except, so the endpoint
never produces any ChatResponse - in particular not the fixed-apology
one - and the exception escapes to the framework. -/
theorem C10_chat_endpoint_type_error (mm : MMIface) (o : Oracle) (req : ChatRequest) :
    chat_endpoint mm o req = Except.error PyErr.typeErr ∧
    (∀ r : ChatResponse, chat_endpoint mm o req ≠ Except.ok r) := by
  constructor
  · rfl
  · intro r h
    rw [show chat_endpoint mm o req = Except.error PyErr.typeErr from rfl] at h
    cases h

end NeuroHack
